import Mathlib

/-!
Shallow embedding of the auction-house ink! contract in `src/lib.rs`
(module `auction_house`) of the fat-contract workshop repository.

Modelling conventions:
- `u64` timestamps and `u128` balances are `Nat`s; every arithmetic
  operation the source performs with Rust's built-in `+`, `-`, `*`
  is modelled with explicit wrapping modulo `2^64` / `2^128`
  (`wadd64`, `wsub64`, `wadd128`, `wmul128`), the semantics of those
  operators when overflow checks are disabled.  Integer division by
  100 is ordinary `Nat` division, as in the source.
- `AccountId` is an opaque identifier, modelled as `Nat`; `TokenId`
  is a `String` (the source stores `token_id: String` in `Auction`
  and compares it with the `TokenId` message argument).
- The message bodies all access a single `self.token_auction :
  Option<Auction>` slot (the declared `token_auctions` mapping is
  unused by every function), so the contract state carries
  `token_auction : Option Auction`.
- The source `Auction` struct declares an `owner` field that no
  function reads and that `_create_auction`'s struct literal does not
  initialize; it is omitted here.
- Side effects are made explicit: each operation returns, besides its
  result and the new contract state, the ordered list of effects it
  performed — writes of `self.token_auction` (`storeWrite`) and event
  emissions (`emit`).  The asset-transfer / burn / currency-transfer
  collaborators of the settle path exist in the source only as `TODO`
  comments, so no effect constructor for them is ever produced; the
  `collab` constructor stands for such a collaborator call so that
  ordering statements about them are expressible.
-/

namespace FatAuction

abbrev TokenId := String
abbrev AccountId := Nat
abbrev Balance := Nat
abbrev Timestamp := Nat

/-- Modulus of the `u64` machine type. -/
def U64MOD : Nat := 2 ^ 64

/-- Modulus of the `u128` machine type. -/
def U128MOD : Nat := 2 ^ 128

/-- Wrapping `u64` addition, the semantics of Rust `+` on `u64` without
overflow checks. -/
def wadd64 (a b : Nat) : Nat := (a + b) % U64MOD

/-- Wrapping `u64` subtraction, the semantics of Rust `-` on `u64` without
overflow checks. -/
def wsub64 (a b : Nat) : Nat := (a % U64MOD + (U64MOD - b % U64MOD)) % U64MOD

/-- Wrapping `u128` addition. -/
def wadd128 (a b : Nat) : Nat := (a + b) % U128MOD

/-- Wrapping `u128` multiplication. -/
def wmul128 (a b : Nat) : Nat := (a * b) % U128MOD

/-- The `Auction` record of `src/lib.rs` (lines 34-49), minus the unused
and never-initialized `owner` field. -/
structure Auction where
  token_id : TokenId
  amount : Balance
  start_time : Timestamp
  end_time : Timestamp
  bidder : Option AccountId
  settled : Bool
deriving Repr, DecidableEq

/-- The contract storage of `src/lib.rs` (struct `AuctionHouse`,
lines 54-69), with the single `token_auction` slot actually used by the
message bodies, and without the messenger reference (used by no claim). -/
structure AuctionHouse where
  owner : AccountId
  token_auction : Option Auction
  time_buffer : Nat
  reserve_price : Balance
  min_bid_increment_percentage : Balance
  duration : Nat
deriving Repr, DecidableEq

/-- The `Error` enum of `src/lib.rs` (lines 116-129). -/
inductive Error where
  | NotOwner
  | NotApproved
  | OwnerCannotBidOnToken
  | TokenNotForAuction
  | TokenAuctionExpired
  | BidBelowReservePrice
  | BidBelowMinBidIncrementPercentage
  | TokenAuctionHasNotStarted
  | TokenAuctionHasBeenSettled
  | TokenAuctionStillInProgress
  | TokenAuctionHasNotFound
  | BidderAlreadyTopBid
deriving Repr, DecidableEq

/-- The contract events of `src/lib.rs` (lines 71-112). -/
inductive Event where
  | AuctionCreated (token_id : TokenId) (start_time end_time : Timestamp)
  | AuctionBid (token_id : TokenId) (sender : AccountId) (amount : Balance) (extended : Bool)
  | AuctionExtended (token_id : TokenId) (end_time : Timestamp)
  | AuctionSettled (token_id : TokenId) (winner : Option AccountId) (amount : Balance)
  | AuctionTimeBufferUpdated (time_buffer : Nat)
  | AuctionReservePriceUpdated (reserve_price : Balance)
  | AuctionMinBidIncrementPercentageUpdated (min_bid_increment_percentage : Balance)
deriving Repr, DecidableEq

/-- One observable side effect of an operation, in program order.
`storeWrite` is an assignment to `self.token_auction`; `emit` is an
`emit_event` call; `collab` is a call to an asset-transfer, burn, or
currency-transfer collaborator (the source contains no such call — the
settle path holds only `TODO` comments where they would go). -/
inductive Effect where
  | storeWrite (a : Auction)
  | emit (e : Event)
  | collab (name : String)
deriving Repr, DecidableEq

instance : DecidableEq (Except Error Unit) := fun a b =>
  match a, b with
  | .ok (), .ok () => isTrue rfl
  | .error e1, .error e2 =>
    match decEq e1 e2 with
    | isTrue h => isTrue (by rw [h])
    | isFalse h => isFalse (by intro he; injection he; exact h (by assumption))
  | .ok _, .error _ => isFalse (by intro h; exact Except.noConfusion h)
  | .error _, .ok _ => isFalse (by intro h; exact Except.noConfusion h)

/-- Result, post-state and effect trace of one contract call. -/
structure Outcome where
  result : Except Error Unit
  state : AuctionHouse
  effects : List Effect
deriving Repr, DecidableEq

/-- Events emitted during an outcome, in order. -/
def Outcome.events (o : Outcome) : List Effect :=
  o.effects.filter fun f => match f with | .emit _ => true | _ => false

/-- Store writes performed during an outcome, in order. -/
def Outcome.writes (o : Outcome) : List Effect :=
  o.effects.filter fun f => match f with | .storeWrite _ => true | _ => false

/-- The `create_bid` message of `src/lib.rs` (lines 194-247), translated
line by line.  `now` is `self.env().block_timestamp()` and `caller` is
`self.env().caller()`.  Note the guard conditions exactly as written in
the source: line 201 rejects with `TokenAuctionExpired` when
`block_timestamp < end_time`; line 202 rejects with
`BidBelowReservePrice` when `reserve_price <= amount`; lines 203-206
reject with `BidBelowMinBidIncrementPercentage` when
`amount >= auction.amount + auction.amount * pct / 100`; line 209
rejects with `OwnerCannotBidOnToken` when `caller != self.owner`;
line 216 rejects with `BidderAlreadyTopBid` when
`last_bidder != Some(caller)`. -/
def create_bid (self : AuctionHouse) (now : Timestamp) (caller : AccountId)
    (token_id : TokenId) (amount : Balance) : Outcome :=
  match self.token_auction with
  | none => ⟨.error .TokenAuctionHasNotFound, self, []⟩
  | some auction =>
    if auction.token_id ≠ token_id then ⟨.error .TokenNotForAuction, self, []⟩
    else if now < auction.end_time then ⟨.error .TokenAuctionExpired, self, []⟩
    else if self.reserve_price ≤ amount then ⟨.error .BidBelowReservePrice, self, []⟩
    else if wadd128 auction.amount
        (wmul128 auction.amount self.min_bid_increment_percentage / 100) ≤ amount then
      ⟨.error .BidBelowMinBidIncrementPercentage, self, []⟩
    else if caller ≠ self.owner then ⟨.error .OwnerCannotBidOnToken, self, []⟩
    -- the `last_bidder.is_none()` branch of lines 212-214 holds only a
    -- `TODO: Refund the last bidder` comment
    else if auction.bidder ≠ some caller then ⟨.error .BidderAlreadyTopBid, self, []⟩
    else
      let extended := wsub64 auction.end_time now < self.time_buffer
      let auction1 : Auction :=
        { auction with
          amount := amount
          bidder := some caller
          end_time := if extended then wadd64 now self.time_buffer else auction.end_time }
      ⟨.ok (), { self with token_auction := some auction1 },
        Effect.storeWrite auction1 ::
          Effect.emit (.AuctionBid token_id caller amount extended) ::
          (if extended then [Effect.emit (.AuctionExtended token_id auction1.end_time)] else [])⟩

/-- The internal `_create_auction` of `src/lib.rs` (lines 297-317):
writes a fresh record with `start_time = now`,
`end_time = start_time + duration` (wrapping `u64` addition),
`amount = 0`, `bidder = None`, `settled = false`, and emits
`AuctionCreated`. -/
def _create_auction (self : AuctionHouse) (now : Timestamp) (token_id : TokenId) :
    AuctionHouse × List Effect :=
  let start_time := now
  let end_time := wadd64 start_time self.duration
  let auction : Auction :=
    { token_id := token_id
      amount := 0
      start_time := start_time
      end_time := end_time
      bidder := none
      settled := false }
  ({ self with token_auction := some auction },
    [Effect.storeWrite auction, Effect.emit (.AuctionCreated token_id start_time end_time)])

/-- The internal `_settle_auction` of `src/lib.rs` (lines 319-352),
translated line by line.  The guards exactly as written: line 321
rejects with `TokenAuctionHasNotStarted` when `start_time != 0`;
line 322 rejects with `TokenAuctionHasBeenSettled` when `!settled`;
lines 323-325 reject with `TokenAuctionStillInProgress` when
`block_timestamp >= end_time`.  Line 327 sets `settled = true` on the
local clone `auction`, which is never written back to
`self.token_auction`; the burn / transfer / currency-transfer branches
hold only comments, so the only effect of a successful call is the
`AuctionSettled` event. -/
def _settle_auction (self : AuctionHouse) (now : Timestamp) : Outcome :=
  match self.token_auction with
  | none => ⟨.error .TokenAuctionHasNotFound, self, []⟩
  | some auction =>
    if auction.start_time ≠ 0 then ⟨.error .TokenAuctionHasNotStarted, self, []⟩
    else if ¬ auction.settled then ⟨.error .TokenAuctionHasBeenSettled, self, []⟩
    else if auction.end_time ≤ now then ⟨.error .TokenAuctionStillInProgress, self, []⟩
    else
      let auction1 : Auction := { auction with settled := true }
      ⟨.ok (), self,
        [Effect.emit (.AuctionSettled auction1.token_id auction1.bidder auction1.amount)]⟩

/-- The `settle_current_and_create_new_auction` message of `src/lib.rs`
(lines 183-186): it calls `_settle_auction`, discards its result, and
then calls `_create_auction` unconditionally. -/
def settle_current_and_create_new_auction (self : AuctionHouse) (now : Timestamp)
    (token_id : TokenId) : AuctionHouse × List Effect :=
  let o := _settle_auction self now
  let c := _create_auction o.state now token_id
  (c.1, o.effects ++ c.2)

/-- The `set_time_buffer` message of `src/lib.rs` (lines 267-274). -/
def set_time_buffer (self : AuctionHouse) (time_buffer : Nat) :
    AuctionHouse × List Effect :=
  ({ self with time_buffer := time_buffer },
    [Effect.emit (.AuctionTimeBufferUpdated time_buffer)])

/-- The `set_reserve_price` message of `src/lib.rs` (lines 277-284). -/
def set_reserve_price (self : AuctionHouse) (reserve_price : Balance) :
    AuctionHouse × List Effect :=
  ({ self with reserve_price := reserve_price },
    [Effect.emit (.AuctionReservePriceUpdated reserve_price)])

/-- The `set_min_bid_increment_percentage` message of `src/lib.rs`
(lines 287-294). -/
def set_min_bid_increment_percentage (self : AuctionHouse) (p : Balance) :
    AuctionHouse × List Effect :=
  ({ self with min_bid_increment_percentage := p },
    [Effect.emit (.AuctionMinBidIncrementPercentageUpdated p)])

/-- Contract state produced by the constructors (`default`, lines
134-155, with all tunables zero; `new`, lines 158-179, with the given
tunables): no auction record is stored. -/
def init (owner : AccountId) (time_buffer : Nat) (reserve_price : Balance)
    (min_bid_increment_percentage : Balance) (duration : Nat) : AuctionHouse :=
  { owner := owner
    token_auction := none
    time_buffer := time_buffer
    reserve_price := reserve_price
    min_bid_increment_percentage := min_bid_increment_percentage
    duration := duration }

/-- One external call into the contract, with the block timestamp and
caller it observes. -/
inductive Op where
  | bid (now : Timestamp) (caller : AccountId) (token_id : TokenId) (amount : Balance)
  | settle (now : Timestamp)
  | create (now : Timestamp) (token_id : TokenId)
  | settleAndCreate (now : Timestamp) (token_id : TokenId)
  | setTimeBuffer (v : Nat)
  | setReservePrice (v : Balance)
  | setMinBidIncrementPercentage (v : Balance)
deriving Repr, DecidableEq

/-- Whether an operation runs `_create_auction` (and may hence replace
the stored record with a fresh one). -/
def Op.isCreate : Op → Bool
  | .create _ _ => true
  | .settleAndCreate _ _ => true
  | _ => false

/-- State transition of one contract call. -/
def stepOp (s : AuctionHouse) : Op → AuctionHouse
  | .bid now caller tid amt => (create_bid s now caller tid amt).state
  | .settle now => (_settle_auction s now).state
  | .create now tid => (_create_auction s now tid).1
  | .settleAndCreate now tid => (settle_current_and_create_new_auction s now tid).1
  | .setTimeBuffer v => (set_time_buffer s v).1
  | .setReservePrice v => (set_reserve_price s v).1
  | .setMinBidIncrementPercentage v => (set_min_bid_increment_percentage s v).1

/-- State after a sequence of contract calls. -/
def run (s : AuctionHouse) (ops : List Op) : AuctionHouse := ops.foldl stepOp s

/-- The highest-bid amount currently stored (0 when no record exists). -/
def storedAmount (s : AuctionHouse) : Balance :=
  (s.token_auction.map Auction.amount).getD 0


/-! ## Sample states used by the concrete theorems -/

/-- An open, freshly created auction for token `"t"` ending at `3600`,
in a house with `time_buffer = 300`, `reserve_price = 100`,
`min_bid_increment_percentage = 5`, `duration = 3600` (the concrete
scenario of the specification). -/
def sOpen : AuctionHouse :=
  { owner := 7
    token_auction := some
      { token_id := "t", amount := 0, start_time := 0, end_time := 3600,
        bidder := none, settled := false }
    time_buffer := 300, reserve_price := 100, min_bid_increment_percentage := 5
    duration := 3600 }

/-- A state on which `create_bid` accepts the bid
`create_bid _ 50 7 "t" 5`: matching token, `now = end_time`, an amount
below the (inverted) reserve and increment guards, the caller equal to
the house owner and already the recorded top bidder. -/
def sAccept : AuctionHouse :=
  { owner := 7
    token_auction := some
      { token_id := "t", amount := 10, start_time := 0, end_time := 50,
        bidder := some 7, settled := false }
    time_buffer := 300, reserve_price := 1000, min_bid_increment_percentage := 0
    duration := 3600 }

/-- A state whose record passes every `_settle_auction` guard as the
source writes them: `start_time = 0`, `settled = true`, and (for calls
at `now < 100`) `now < end_time`. -/
def sSettleOk : AuctionHouse :=
  { owner := 7
    token_auction := some
      { token_id := "t", amount := 150, start_time := 0, end_time := 100,
        bidder := some 3, settled := true }
    time_buffer := 300, reserve_price := 100, min_bid_increment_percentage := 5
    duration := 3600 }

/-- A state holding a fresh, unsettled record (`settled = false`,
`start_time = 0`) whose auction has ended (`end_time = 100`). -/
def sUnsettled : AuctionHouse :=
  { owner := 7
    token_auction := some
      { token_id := "t", amount := 0, start_time := 0, end_time := 100,
        bidder := none, settled := false }
    time_buffer := 300, reserve_price := 100, min_bid_increment_percentage := 5
    duration := 3600 }

/-- A state on which an accepted bid at `now = 20` evaluates the
source's `auction.end_time - block_timestamp()` with
`end_time = 10 < 20 = now`, i.e. an underflowing `u64` subtraction. -/
def sUnder : AuctionHouse :=
  { owner := 7
    token_auction := some
      { token_id := "t", amount := 10, start_time := 0, end_time := 10,
        bidder := some 7, settled := false }
    time_buffer := 5, reserve_price := 100, min_bid_increment_percentage := 0
    duration := 3600 }

/-- A state on which the minimum-increment threshold
`auction.amount + auction.amount * pct / 100` overflows `u128`:
`amount = 2^128 - 1` and `pct = 200`. -/
def sOver : AuctionHouse :=
  { owner := 7
    token_auction := some
      { token_id := "t", amount := 2 ^ 128 - 1, start_time := 0, end_time := 10,
        bidder := some 7, settled := false }
    time_buffer := 5, reserve_price := 2 ^ 128 - 1, min_bid_increment_percentage := 200
    duration := 3600 }

/-! ## Helper lemmas -/

/-- When the stored record has no bidder (or no record is stored),
`create_bid` fails — its final guard demands that the caller already be
the recorded top bidder — and leaves the state unchanged. -/
lemma create_bid_err_of_no_bidder (s : AuctionHouse) (now : Timestamp)
    (caller : AccountId) (tid : TokenId) (amt : Balance)
    (h : ∀ a, s.token_auction = some a → a.bidder = none) :
    (∃ e, (create_bid s now caller tid amt).result = Except.error e) ∧
      (create_bid s now caller tid amt).state = s := by
  cases hta : s.token_auction with
  | none => exact ⟨⟨.TokenAuctionHasNotFound, by simp [create_bid, hta]⟩, by simp [create_bid, hta]⟩
  | some a =>
    have hb := h a hta
    simp only [create_bid, hta]
    repeat' split
    all_goals simp_all

/-- `_settle_auction` never mutates the contract state: the
`settled = true` mark of line 327 lands on a local clone that is
dropped. -/
lemma _settle_auction_state (s : AuctionHouse) (now : Timestamp) :
    (_settle_auction s now).state = s := by
  unfold _settle_auction
  cases s.token_auction with
  | none => rfl
  | some a =>
    repeat' split
    all_goals rfl

/-- `_settle_auction` fails on any record with a nonzero
`start_time` (first guard, line 321). -/
lemma _settle_auction_err_of_start_ne (s : AuctionHouse) (now : Timestamp)
    (a : Auction) (hta : s.token_auction = some a) (h0 : a.start_time ≠ 0) :
    (_settle_auction s now).result = Except.error Error.TokenAuctionHasNotStarted := by
  simp [_settle_auction, hta, h0]

/-- Invariant: the stored record (when present) still has a zero amount
and no bidder. -/
def recGood (s : AuctionHouse) : Prop :=
  ∀ a, s.token_auction = some a → a.amount = 0 ∧ a.bidder = none

lemma recGood_init (owner : AccountId) (tb : Nat) (rp pct : Balance) (dur : Nat) :
    recGood (init owner tb rp pct dur) := by
  intro a ha
  simp [init] at ha

lemma recGood_create (s : AuctionHouse) (now : Timestamp) (tid : TokenId) :
    recGood (_create_auction s now tid).1 := by
  intro a ha
  simp [_create_auction] at ha
  simp [← ha]

lemma recGood_step (s : AuctionHouse) (op : Op) (h : recGood s) :
    recGood (stepOp s op) := by
  cases op with
  | bid now caller tid amt =>
    have := (create_bid_err_of_no_bidder s now caller tid amt
      (fun a ha => (h a ha).2)).2
    simpa [stepOp, this] using h
  | settle now => simpa [stepOp, _settle_auction_state] using h
  | create now tid => exact recGood_create s now tid
  | settleAndCreate now tid =>
    have hs := _settle_auction_state s now
    simp only [stepOp, settle_current_and_create_new_auction, hs]
    exact recGood_create s now tid
  | setTimeBuffer v => exact fun a ha => h a ha
  | setReservePrice v => exact fun a ha => h a ha
  | setMinBidIncrementPercentage v => exact fun a ha => h a ha

lemma recGood_run (s : AuctionHouse) (ops : List Op) (h : recGood s) :
    recGood (run s ops) := by
  induction ops generalizing s with
  | nil => exact h
  | cons op ops ih => exact ih _ (recGood_step s op h)

/-- Along operations that do not run `_create_auction`, a state whose
record has no bidder keeps its `token_auction` slot literally
unchanged: bids all fail (final guard) and settling never writes. -/
lemma run_token_auction_eq (s : AuctionHouse) (ops : List Op) (h : recGood s)
    (hnc : ∀ op ∈ ops, op.isCreate = false) :
    (run s ops).token_auction = s.token_auction := by
  induction ops generalizing s with
  | nil => rfl
  | cons op ops ih =>
    have hop : op.isCreate = false := hnc op (by simp)
    have hstep : (stepOp s op).token_auction = s.token_auction := by
      cases op with
      | bid now caller tid amt =>
        have := (create_bid_err_of_no_bidder s now caller tid amt
          (fun a ha => (h a ha).2)).2
        simp [stepOp, this]
      | settle now => simp [stepOp, _settle_auction_state]
      | create now tid => simp [Op.isCreate] at hop
      | settleAndCreate now tid => simp [Op.isCreate] at hop
      | setTimeBuffer v => rfl
      | setReservePrice v => rfl
      | setMinBidIncrementPercentage v => rfl
    have hgood : recGood (stepOp s op) := recGood_step s op h
    calc (run (stepOp s op) ops).token_auction
        = (stepOp s op).token_auction := ih _ hgood (fun o ho => hnc o (by simp [ho]))
      _ = s.token_auction := hstep

lemma storedAmount_eq_zero (s : AuctionHouse) (h : recGood s) :
    storedAmount s = 0 := by
  cases hta : s.token_auction with
  | none => simp [storedAmount, hta]
  | some a => simp [storedAmount, hta, (h a hta).1]


/-! ## Claim theorems -/

/-- C1: The open-window check of `create_bid` is inverted in the source.
The claim states that a bid passes the open-window check exactly when
`now < end_time` and is rejected with `TokenAuctionExpired` at or after
`end_time`; the code (line 201) rejects with `TokenAuctionExpired`
exactly when `now < end_time`.  Concretely, on an open auction ending
at 3600 a bid at `now = 100` is rejected as `TokenAuctionExpired`, and
the same bid at `now = 3600` (at `end_time`) is not rejected for that
reason. -/
theorem create_bid_open_window_check_inverted :
    (create_bid sOpen 100 7 "t" 150).result = Except.error Error.TokenAuctionExpired ∧
    (create_bid sOpen 3600 7 "t" 150).result ≠ Except.error Error.TokenAuctionExpired := by
  decide

/-- C2: Every bid that `create_bid` accepts stores the submitted amount
and the caller as bidder; and exactly when the source's remaining-time
computation `end_time - now` (wrapping `u64` subtraction, as the code
performs it) is below `time_buffer`, the stored `end_time` becomes
`now + time_buffer`, the `AuctionBid` event carries `extended = true`
and an `AuctionExtended` event is emitted; otherwise `end_time` is
unchanged, the `AuctionBid` event carries `extended = false`, and no
`AuctionExtended` event is emitted. -/
theorem create_bid_accept_updates_record_and_extends
    (s : AuctionHouse) (now : Timestamp) (caller : AccountId) (tid : TokenId)
    (amt : Balance) (rec : Auction) (hrec : s.token_auction = some rec)
    (hok : (create_bid s now caller tid amt).result = Except.ok ()) :
    ∃ rec1, (create_bid s now caller tid amt).state.token_auction = some rec1 ∧
      rec1.amount = amt ∧ rec1.bidder = some caller ∧
      (if wsub64 rec.end_time now < s.time_buffer then
        rec1.end_time = wadd64 now s.time_buffer ∧
        (create_bid s now caller tid amt).effects =
          [Effect.storeWrite rec1,
            Effect.emit (Event.AuctionBid tid caller amt true),
            Effect.emit (Event.AuctionExtended tid (wadd64 now s.time_buffer))]
      else
        rec1.end_time = rec.end_time ∧
        (create_bid s now caller tid amt).effects =
          [Effect.storeWrite rec1,
            Effect.emit (Event.AuctionBid tid caller amt false)]) := by
  by_cases h1 : rec.token_id ≠ tid
  · simp [create_bid, hrec, h1] at hok
  by_cases h2 : now < rec.end_time
  · simp [create_bid, hrec, h1, h2] at hok
  by_cases h3 : s.reserve_price ≤ amt
  · simp [create_bid, hrec, h1, h2, h3] at hok
  by_cases h4 : wadd128 rec.amount
      (wmul128 rec.amount s.min_bid_increment_percentage / 100) ≤ amt
  · simp [create_bid, hrec, h1, h2, h3, h4] at hok
  by_cases h5 : caller ≠ s.owner
  · simp [create_bid, hrec, h1, h2, h3, h4, h5] at hok
  by_cases h6 : rec.bidder ≠ some caller
  · simp [create_bid, hrec, h1, h2, h3, h4, h5, h6] at hok
  by_cases hx : wsub64 rec.end_time now < s.time_buffer
  · refine ⟨{ rec with
        amount := amt
        bidder := some caller
        end_time := wadd64 now s.time_buffer }, ?_, rfl, rfl, ?_⟩
    · simp [create_bid, hrec, h1, h2, h3, h4, h5, h6, hx]
    · rw [if_pos hx]
      exact ⟨rfl, by simp [create_bid, hrec, h1, h2, h3, h4, h5, h6, hx]⟩
  · refine ⟨{ rec with
        amount := amt
        bidder := some caller
        end_time := rec.end_time }, ?_, rfl, rfl, ?_⟩
    · simp [create_bid, hrec, h1, h2, h3, h4, h5, h6, hx]
    · rw [if_neg hx]
      exact ⟨rfl, by simp [create_bid, hrec, h1, h2, h3, h4, h5, h6, hx]⟩

/-- Witness for C2: the accepted bid `create_bid sAccept 50 7 "t" 5`
(the caller 7 is the house owner and recorded top bidder, `now`
equals `end_time = 50`) stores amount 5 and bidder 7, and since the
wrapped remaining time 0 is below the buffer 300, extends the auction
to `wadd64 50 300 = 350` and emits `AuctionExtended`. -/
theorem create_bid_accept_updates_record_and_extends_witness :
    ∃ rec1, (create_bid sAccept 50 7 "t" 5).state.token_auction = some rec1 ∧
      rec1.amount = 5 ∧ rec1.bidder = some 7 ∧
      (if wsub64 50 50 < 300 then
        rec1.end_time = wadd64 50 300 ∧
        (create_bid sAccept 50 7 "t" 5).effects =
          [Effect.storeWrite rec1,
            Effect.emit (Event.AuctionBid "t" 7 5 true),
            Effect.emit (Event.AuctionExtended "t" (wadd64 50 300))]
      else
        rec1.end_time = 50 ∧
        (create_bid sAccept 50 7 "t" 5).effects =
          [Effect.storeWrite rec1,
            Effect.emit (Event.AuctionBid "t" 7 5 false)]) :=
  create_bid_accept_updates_record_and_extends sAccept 50 7 "t" 5
    { token_id := "t", amount := 10, start_time := 0, end_time := 50,
      bidder := some 7, settled := false } rfl rfl

/-- C3: The guards of `_settle_auction` are inverted in the source, and
no settlement is ever recorded.  On an unsettled, ended auction the
call fails with `TokenAuctionHasBeenSettled` (the claim expects that
error only when `settled == true`); on a record with `settled = true`
and `now < end_time` the call succeeds (the claim expects
`AlreadySettled`); a second settle on the same state succeeds again
instead of failing with `AlreadySettled`; and with `now >= end_time`
the call fails with `TokenAuctionStillInProgress` (the claim expects
that error exactly when `now < end_time`). -/
theorem settle_guards_inverted :
    (_settle_auction sUnsettled 200).result =
      Except.error Error.TokenAuctionHasBeenSettled ∧
    (_settle_auction sSettleOk 50).result = Except.ok () ∧
    (_settle_auction ((_settle_auction sSettleOk 50).state) 50).result =
      Except.ok () ∧
    (_settle_auction sSettleOk 150).result =
      Except.error Error.TokenAuctionStillInProgress := by
  decide

/-- C4: A successful `_settle_auction` commits nothing to the store:
the `settled = true` mark of line 327 is applied to a local clone that
is never written back (`Outcome.writes` is empty and the state is
unchanged), so no settled-before-external-calls ordering exists; the
only effect is the `AuctionSettled (token, bidder, amount)` event. -/
theorem settle_success_commits_nothing :
    (_settle_auction sSettleOk 50).result = Except.ok () ∧
    (_settle_auction sSettleOk 50).state = sSettleOk ∧
    (_settle_auction sSettleOk 50).writes = [] ∧
    (_settle_auction sSettleOk 50).effects =
      [Effect.emit (Event.AuctionSettled "t" (some 3) 150)] := by
  decide

/-- C5: `settle_current_and_create_new_auction` ignores the result of
`_settle_auction` and calls `_create_auction` unconditionally: in a
state with no auction record the settle step fails with
`TokenAuctionHasNotFound`, yet a fresh auction record for the new
token is written anyway. -/
theorem settle_and_create_ignores_settle_failure :
    (_settle_auction (init 7 300 100 5 3600) 10).result =
      Except.error Error.TokenAuctionHasNotFound ∧
    (settle_current_and_create_new_auction (init 7 300 100 5 3600) 10 "t2").1.token_auction =
      some { token_id := "t2", amount := 0, start_time := 10, end_time := 3610,
             bidder := none, settled := false } := by
  decide

/-- C6: The reserve-price check of `create_bid` is inverted in the
source (line 202 rejects when `reserve_price <= amount`): with
`reserve_price = 100`, a bid of 150 is rejected with
`BidBelowReservePrice` (leaving the record unchanged), while a bid of
50 — below the reserve — is not rejected with that error. -/
theorem create_bid_reserve_check_inverted :
    (create_bid sOpen 3600 7 "t" 150).result =
      Except.error Error.BidBelowReservePrice ∧
    (create_bid sOpen 3600 7 "t" 150).state = sOpen ∧
    (create_bid sOpen 3600 7 "t" 50).result ≠
      Except.error Error.BidBelowReservePrice := by
  decide

/-- C7: The bid and create paths perform no checked arithmetic; the
embedding's wrapping operators mirror the source's plain `+`, `-`, `*`.
Concretely: `_create_auction` with `duration = 2^64 - 5` at `now = 10`
stores `end_time = 5` (wrapped past `start_time = 10`) without error;
an accepted bid at `now = 20` on an auction with `end_time = 10`
evaluates the underflowing remaining time `wsub64 10 20` and succeeds
(no extension) instead of failing; and the increment threshold on a
record with `amount = 2^128 - 1` and percentage 200 wraps to
`3402823669209384634633746074317682111`, so the comparison is made
against the wrapped value rather than failing with an arithmetic
error (the source's `Error` enum has no arithmetic variant at all). -/
theorem auction_arithmetic_wraps_unchecked :
    ((_create_auction (init 7 300 100 5 (2 ^ 64 - 5)) 10 "t").1.token_auction =
      some { token_id := "t", amount := 0, start_time := 10, end_time := 5,
             bidder := none, settled := false }) ∧
    ((create_bid sUnder 20 7 "t" 5).result = Except.ok () ∧
      (create_bid sUnder 20 7 "t" 5).state.token_auction =
        some { token_id := "t", amount := 5, start_time := 0, end_time := 10,
               bidder := some 7, settled := false }) ∧
    (wadd128 (2 ^ 128 - 1) (wmul128 (2 ^ 128 - 1) 200 / 100) =
        3402823669209384634633746074317682111 ∧
      (create_bid sOver 20 7 "t" (2 ^ 128 - 2)).result =
        Except.error Error.BidBelowMinBidIncrementPercentage) := by
  decide

/-- C8: Along any sequence of contract calls from a constructed state,
the stored amount never decreases: for every prefix of the call
sequence, the amount stored afterwards is at least the amount stored at
the prefix.  (It holds degenerately: from a constructed state no bid is
ever accepted — see C9 — so the stored amount is always 0.) -/
theorem stored_amount_monotone (owner : AccountId) (tb : Nat) (rp pct : Balance)
    (dur : Nat) (ops more : List Op) :
    storedAmount (run (init owner tb rp pct dur) ops) ≤
      storedAmount (run (init owner tb rp pct dur) (ops ++ more)) := by
  have h1 := recGood_run _ ops (recGood_init owner tb rp pct dur)
  have h2 := recGood_run _ (ops ++ more) (recGood_init owner tb rp pct dur)
  rw [storedAmount_eq_zero _ h1, storedAmount_eq_zero _ h2]

/-- C9: When the stored record has no bidder (in particular for every
record freshly produced by `_create_auction`), `create_bid` returns an
error for every caller, amount and time — its final guard requires the
caller to already be the recorded top bidder — and leaves the state
unchanged; consequently in every state reachable from a fresh auction
the stored amount remains 0 and the stored bidder remains `none`. -/
theorem create_bid_always_fails_without_top_bidder :
    (∀ (s : AuctionHouse) (now : Timestamp) (caller : AccountId) (tid : TokenId)
        (amt : Balance), (∀ a, s.token_auction = some a → a.bidder = none) →
      (∃ e, (create_bid s now caller tid amt).result = Except.error e) ∧
        (create_bid s now caller tid amt).state = s) ∧
    (∀ (s0 : AuctionHouse) (now0 : Timestamp) (tid : TokenId) (ops : List Op)
        (a : Auction),
      (run (_create_auction s0 now0 tid).1 ops).token_auction = some a →
      a.amount = 0 ∧ a.bidder = none) := by
  constructor
  · exact fun s now caller tid amt h => create_bid_err_of_no_bidder s now caller tid amt h
  · intro s0 now0 tid ops a ha
    exact recGood_run _ ops (recGood_create s0 now0 tid) a ha

/-- Witness for C9: on the fresh open auction `sOpen` (bidder `none`),
the bid `create_bid sOpen 3600 9 "t" 500` fails and leaves the state
unchanged. -/
theorem create_bid_always_fails_without_top_bidder_witness :
    (∃ e, (create_bid sOpen 3600 9 "t" 500).result = Except.error e) ∧
      (create_bid sOpen 3600 9 "t" 500).state = sOpen :=
  create_bid_always_fails_without_top_bidder.1 sOpen 3600 9 "t" 500
    (fun a ha => by injection ha with h; rw [← h])

/-- C10: `_settle_auction` returns `Ok` only when the stored record has
`start_time = 0`, `settled = true` and the call time is strictly before
`end_time`; and every record produced by `_create_auction` at a nonzero
block timestamp (hence `start_time ≠ 0`, and bids never change that)
can never be settled: after any sequence of non-creating calls,
`_settle_auction` still fails. -/
theorem settle_ok_requires_unreachable_record :
    (∀ (s : AuctionHouse) (now : Timestamp),
      (_settle_auction s now).result = Except.ok () →
      ∃ a, s.token_auction = some a ∧ a.start_time = 0 ∧ a.settled = true ∧
        now < a.end_time) ∧
    (∀ (s0 : AuctionHouse) (now0 : Timestamp) (tid : TokenId) (ops : List Op)
        (now1 : Timestamp), now0 ≠ 0 → (∀ op ∈ ops, op.isCreate = false) →
      ∃ e, (_settle_auction (run (_create_auction s0 now0 tid).1 ops) now1).result =
        Except.error e) := by
  constructor
  · intro s now hok
    cases hta : s.token_auction with
    | none => simp [_settle_auction, hta] at hok
    | some a =>
      by_cases h1 : a.start_time ≠ 0
      · simp [_settle_auction, hta, h1] at hok
      by_cases h2 : ¬ a.settled
      · simp [_settle_auction, hta, h1, h2] at hok
      by_cases h3 : a.end_time ≤ now
      · simp [_settle_auction, hta, h1, h2, h3] at hok
      exact ⟨a, rfl, by simpa using h1, by simpa using h2, lt_of_not_le h3⟩
  · intro s0 now0 tid ops now1 h0 hnc
    have hta : (run (_create_auction s0 now0 tid).1 ops).token_auction =
        (_create_auction s0 now0 tid).1.token_auction :=
      run_token_auction_eq _ ops (recGood_create s0 now0 tid) hnc
    exact ⟨Error.TokenAuctionHasNotStarted,
      _settle_auction_err_of_start_ne _ now1
        { token_id := tid, amount := 0, start_time := now0,
          end_time := wadd64 now0 s0.duration, bidder := none, settled := false }
        (by rw [hta]; rfl) h0⟩

/-- Witness for C10: the auction created at timestamp 5 cannot be
settled at time 9 (with no intervening calls). -/
theorem settle_ok_requires_unreachable_record_witness :
    ∃ e, (_settle_auction
        (run (_create_auction (init 7 300 100 5 3600) 5 "t").1 []) 9).result =
      Except.error e :=
  settle_ok_requires_unreachable_record.2 (init 7 300 100 5 3600) 5 "t" [] 9
    (by decide) (by intro op h; cases h)

end FatAuction
